import Mathlib

/-!
Shallow embedding of the go-validate library (validate.go).

Go `error` values relevant here are either leaf errors (anything exposing
only a message via Error()) or `PropertyError` values; the inductive `Err`
captures exactly that taxonomy.  Dynamic `interface\x7b\x7d` label/index values
appearing in the claims are integers and strings; `GoVal` models them
together with Go's `%v` (fmt.Sprint) and `%#v` renderings.
-/

/-- A printable Go dynamic value used as a property label or index key. -/
inductive GoVal where
  | int (n : Int)
  | str (s : String)
deriving DecidableEq, Repr

/-- Go `%v` formatting (fmt.Sprint) of a `GoVal`: ints in decimal, strings verbatim. -/
def goSprint : GoVal → String
  | .int n => toString n
  | .str s => s

/-- Go `%#v` formatting of a `GoVal`: ints in decimal, strings Go-quoted. -/
def goRepr : GoVal → String
  | .int n => toString n
  | .str s => "\"" ++ s ++ "\""

/-- Go `%v` of a `[]interface\x7b\x7d` slice: `[` elements space-joined `]`. -/
def goSprintSlice (v : List GoVal) : String :=
  "[" ++ String.intercalate " " (v.map goSprint) ++ "]"

/-- Go `%#v` of a `[]interface\x7b\x7d` slice: `[]interface \x7b\x7d\x7b` elements comma-joined `\x7d`. -/
def goSharpSlice (v : List GoVal) : String :=
  "[]interface \x7b\x7d\x7b" ++ String.intercalate ", " (v.map goRepr) ++ "\x7d"

/-- Go error values seen by this library: either a leaf error carrying a
message (returned by its Error() method), or a `PropertyError` with the
three fields `property`, `index`, `err` of validate.go lines 74-78. -/
inductive Err where
  | leaf (msg : String)
  | pe (property : String) (index : Option GoVal) (err : Err)
deriving DecidableEq, Repr

/-- The prefix computation shared by PropertyError.Property and
PropertyError.Error (validate.go lines 91-94 and 104-107):
`prefix := err.property; if err.index != nil then prefix += [%#v index]`. -/
def pfxOf (property : String) (index : Option GoVal) : String :=
  match index with
  | some v => property ++ "[" ++ goRepr v ++ "]"
  | none => property

/-- PropertyError.OriginatingError (validate.go lines 81-87): if the wrapped
`err` field is a PropertyError, recurse into it; otherwise return it.
The leaf case is unreachable: Go defines this method only on PropertyError. -/
def Err.OriginatingError : Err → Err
  | .leaf m => .leaf m
  | .pe _ _ e =>
    match e with
    | .pe .. => Err.OriginatingError e
    | .leaf _ => e

/-- PropertyError.Property (validate.go lines 90-100): the prefix, and when
the wrapped `err` field is a PropertyError, `prefix + "." + err.property`
where `err.property` is the RECEIVER's own property field (line 97).
The leaf case is unreachable: Go defines this method only on PropertyError. -/
def Err.Property : Err → String
  | .leaf _ => ""
  | .pe p i e =>
    match e with
    | .pe .. => pfxOf p i ++ "." ++ p
    | .leaf _ => pfxOf p i

/-- Error() (validate.go lines 103-116 for PropertyError): for a leaf error
the message itself; for a PropertyError, the prefix fused directly with the
inner rendering when the inner PropertyError's property is empty, joined
with "." otherwise, and joined with ": " when the inner error is a leaf. -/
def Err.Error : Err → String
  | .leaf m => m
  | .pe p i e =>
    match e with
    | .pe p2 _ _ =>
      if p2 = "" then pfxOf p i ++ Err.Error e
      else pfxOf p i ++ "." ++ Err.Error e
    | .leaf _ => pfxOf p i ++ ": " ++ Err.Error e

/-- A Go dynamic value as passed to the dispatcher `V`: either its runtime
type implements the `Interface` capability `Validate() error` (carrying that
method), or it does not. -/
inductive GoDyn where
  | validatable (validate : Unit → Option Err)
  | plain

/-- V (validate.go lines 25-31): call Validate() on v if v is validatable,
otherwise return nil. -/
def V : GoDyn → Option Err
  | .validatable f => f ()
  | .plain => none

/-- PropertyFunc (validate.go lines 66-71): run the thunk; wrap a non-nil
error as `PropertyError\x7bfmt.Sprint(property), nil, err\x7d`. -/
def PropertyFunc (property : GoVal) (validate : Unit → Option Err) : Option Err :=
  match validate () with
  | some e => some (.pe (goSprint property) none e)
  | none => none

/-- Property (validate.go lines 41-43): PropertyFunc over a thunk dispatching V. -/
def Property (property : String) (value : GoDyn) : Option Err :=
  PropertyFunc (.str property) (fun _ => V value)

/-- IndexFunc (validate.go lines 149-154): run the thunk; wrap a non-nil
error as `PropertyError\x7b"", index, err\x7d`. -/
def IndexFunc (index : GoVal) (validate : Unit → Option Err) : Option Err :=
  match validate () with
  | some e => some (.pe "" (some index) e)
  | none => none

/-- Index (validate.go lines 119-126): IndexFunc over a thunk dispatching V. -/
def Index (index : GoVal) (value : GoDyn) : Option Err :=
  IndexFunc index (fun _ =>
    match V value with
    | some e => some e
    | none => none)

/-- Invalid (validate.go lines 161-171), with the Go switch/fallthrough
unrolled: with more than one token the prefix is
`fmt.Sprint("Invalid", v[:size-1])` (no space: the first operand is a
string) and the result is `fmt.Errorf("%s: %#v", prefix, v[:size-1])`;
with exactly one token the prefix stays "Invalid"; with none the result
is `errors.New("Invalid")`. -/
def Invalid (v : List GoVal) : Err :=
  let size := v.length
  if size > 1 then
    .leaf (("Invalid" ++ goSprintSlice (v.take (size - 1))) ++ ": "
      ++ goSharpSlice (v.take (size - 1)))
  else if size = 1 then
    .leaf ("Invalid" ++ ": " ++ goSharpSlice (v.take (size - 1)))
  else
    .leaf "Invalid"

/-- The innermost non-PropertyError node of an error chain: the spec's
"originating leaf" notion, stated independently of the method it checks. -/
def leafOf : Err → Err
  | .leaf m => .leaf m
  | .pe _ _ e => leafOf e

theorem leafOf_is_leaf (e : Err) : ∃ m, leafOf e = .leaf m := by
  induction e with
  | leaf m => exact ⟨m, rfl⟩
  | pe p i e ih => simpa [leafOf] using ih

theorem originating_eq_leafOf (p : String) (i : Option GoVal) (e : Err) :
    Err.OriginatingError (.pe p i e) = leafOf e := by
  induction e with
  | leaf m => simp [Err.OriginatingError, leafOf]
  | pe p2 i2 e2 ih => simpa [Err.OriginatingError, leafOf] using ih

/-- Claim C1: Error() on a PropertyError whose inner error is a PropertyError
joins this node's prefix with the inner rendering directly when the inner
property is empty and with "." otherwise; the chain
Bars / [1] / Baz / leaf "qux" renders exactly "Bars[1].Baz: qux". -/
theorem C1_error_concatenation :
    (∀ (p : String) (i : Option GoVal) (p2 : String) (i2 : Option GoVal) (e : Err),
      Err.Error (.pe p i (.pe p2 i2 e)) =
        if p2 = "" then pfxOf p i ++ Err.Error (.pe p2 i2 e)
        else pfxOf p i ++ "." ++ Err.Error (.pe p2 i2 e))
    ∧ Err.Error (.pe "Bars" none (.pe "" (some (.int 1)) (.pe "Baz" none (.leaf "qux"))))
        = "Bars[1].Baz: qux" := by
  constructor
  · intro p i p2 i2 e
    rfl
  · decide

/-- Claim C2: V returns exactly x.Validate() when x implements the Validate
capability, and nil otherwise; V is total (never panics). -/
theorem C2_dispatch :
    (∀ f : Unit → Option Err, V (.validatable f) = f ())
    ∧ V .plain = none :=
  ⟨fun _ => rfl, rfl⟩

/-- Claim C3: PropertyFunc returns nil iff the thunk does, and otherwise wraps
the thunk's error (even an existing PropertyError) in exactly one new layer
PropertyError(stringified name, nil, err); IndexFunc likewise wraps as
PropertyError("", key, err). -/
theorem C3_wrap_exactly_once :
    (∀ (name : GoVal) (thunk : Unit → Option Err),
      PropertyFunc name thunk = (thunk ()).map (fun e => .pe (goSprint name) none e))
    ∧ (∀ (key : GoVal) (thunk : Unit → Option Err),
      IndexFunc key thunk = (thunk ()).map (fun e => .pe "" (some key) e)) := by
  constructor
  · intro name thunk
    cases h : thunk () <;> simp [PropertyFunc, h]
  · intro key thunk
    cases h : thunk () <;> simp [IndexFunc, h]

/-- Claim C4: nesting law — PropertyFunc "A" over a thunk returning
PropertyFunc "B" over a thunk returning a leaf error renders as
"A.B: " followed by the leaf message. -/
theorem C4_nesting_law (msg : String) :
    (PropertyFunc (.str "A") (fun _ =>
        PropertyFunc (.str "B") (fun _ => some (.leaf msg)))).map Err.Error
      = some ("A.B: " ++ msg) := by
  show some (("A" ++ ".") ++ (("B" ++ ": ") ++ msg)) = some ("A.B: " ++ msg)
  rw [← String.append_assoc]
  rfl

/-- Claim C4 witness at msg = "qux". -/
theorem C4_nesting_law_witness :
    (PropertyFunc (.str "A") (fun _ =>
        PropertyFunc (.str "B") (fun _ => some (.leaf "qux")))).map Err.Error
      = some "A.B: qux" :=
  C4_nesting_law "qux"

/-- Claim C5 counterexample: at PropertyError("A", nil, PropertyError("B", nil,
leaf "m")) the Property() method returns "A.A", not the claimed "A.B"
(validate.go line 97 appends the receiver's own property field). -/
theorem C5_counterexample :
    Err.Property (.pe "A" none (.pe "B" none (.leaf "m"))) = "A.A"
    ∧ Err.Property (.pe "A" none (.pe "B" none (.leaf "m"))) ≠ "A.B" := by
  decide

/-- Claim C5 (amended): when the inner error is a PropertyError, Property()
returns the prefix, a literal ".", and this node's OWN property name again
(not the inner's); when the inner is a leaf it returns just the prefix. -/
theorem C5_property_one_level :
    (∀ (p : String) (i : Option GoVal) (p2 : String) (i2 : Option GoVal) (e : Err),
      Err.Property (.pe p i (.pe p2 i2 e)) = pfxOf p i ++ "." ++ p)
    ∧ (∀ (p : String) (i : Option GoVal) (m : String),
      Err.Property (.pe p i (.leaf m)) = pfxOf p i) :=
  ⟨fun _ _ _ _ _ => rfl, fun _ _ _ => rfl⟩

/-- Claim C6: Invalid with no tokens yields message "Invalid"; with k ≥ 1
tokens the detail after ": " renders tokens[:k-1] (the last token dropped),
so Invalid("foo") renders "Invalid: " plus the %#v form of an empty slice. -/
theorem C6_invalid_drops_last :
    Invalid [] = .leaf "Invalid"
    ∧ (∀ (x : GoVal) (rest : List GoVal), ∃ p,
        Invalid (x :: rest)
          = .leaf (p ++ ": " ++ goSharpSlice ((x :: rest).take ((x :: rest).length - 1))))
    ∧ Invalid [.str "foo"] = .leaf ("Invalid: " ++ goSharpSlice [])
    ∧ Invalid [.str "foo"] = .leaf "Invalid: []interface \x7b\x7d\x7b\x7d" := by
  refine ⟨rfl, ?_, by decide, by decide⟩
  intro x rest
  cases rest with
  | nil => exact ⟨"Invalid", rfl⟩
  | cons y t =>
    refine ⟨"Invalid" ++ goSprintSlice ((x :: y :: t).take ((x :: y :: t).length - 1)), ?_⟩
    simp [Invalid]

/-- Claim C7: Property(name, value) is nil iff V(value) is nil; on failure it
returns PropertyError(name, nil, e) whose OriginatingError is the
originating leaf of e (e itself when e is a leaf). -/
theorem C7_property_iff_dispatch :
    ∀ (name : String) (value : GoDyn),
      (Property name value = none ↔ V value = none)
      ∧ ∀ e : Err, V value = some e →
          Property name value = some (.pe name none e)
          ∧ Err.OriginatingError (.pe name none e) = leafOf e := by
  intro name value
  constructor
  · cases h : V value <;> simp [Property, PropertyFunc, h]
  · intro e h
    exact ⟨by simp [Property, PropertyFunc, h, goSprint], originating_eq_leafOf name none e⟩

/-- Claim C7 witness: a validatable value failing with leaf "qux" under
property "Bar". -/
theorem C7_property_iff_dispatch_witness :
    V (.validatable fun _ => some (.leaf "qux")) = some (.leaf "qux")
    ∧ Property "Bar" (.validatable fun _ => some (.leaf "qux"))
        = some (.pe "Bar" none (.leaf "qux"))
    ∧ Err.OriginatingError (.pe "Bar" none (.leaf "qux")) = leafOf (.leaf "qux") := by
  have h := (C7_property_iff_dispatch "Bar"
    (.validatable fun _ => some (.leaf "qux"))).2 (.leaf "qux") rfl
  exact ⟨rfl, h.1, h.2⟩

/-- Claim C8: OriginatingError on any PropertyError returns the innermost
non-PropertyError cause (always a leaf, never a PropertyError); in
particular on a 3-level chain it returns the leaf. -/
theorem C8_originating_innermost :
    (∀ (p : String) (i : Option GoVal) (e : Err),
      Err.OriginatingError (.pe p i e) = leafOf e
      ∧ ∃ m, Err.OriginatingError (.pe p i e) = .leaf m)
    ∧ Err.OriginatingError
        (.pe "Bars" none (.pe "" (some (.int 1)) (.pe "Baz" none (.leaf "qux"))))
        = .leaf "qux" := by
  constructor
  · intro p i e
    refine ⟨originating_eq_leafOf p i e, ?_⟩
    rw [originating_eq_leafOf]
    exact leafOf_is_leaf e
  · decide

/-- Claim C9: rendering is pure and deterministic — Error() and Property()
called twice on the same (immutable) error value yield identical strings. -/
theorem C9_rendering_pure (e : Err) :
    Err.Error e = Err.Error e ∧ Err.Property e = Err.Property e :=
  ⟨rfl, rfl⟩

/-- Claim C10: every PropertyError produced by PropertyFunc, IndexFunc,
Property or Index wraps a non-nil inner error (the error the thunk or
dispatcher returned), and OriginatingError on any PropertyError is a leaf,
hence never nil. -/
theorem C10_inner_nonnil :
    (∀ (name : GoVal) (thunk : Unit → Option Err) (w : Err),
      PropertyFunc name thunk = some w →
        ∃ e, thunk () = some e ∧ w = .pe (goSprint name) none e)
    ∧ (∀ (key : GoVal) (thunk : Unit → Option Err) (w : Err),
      IndexFunc key thunk = some w →
        ∃ e, thunk () = some e ∧ w = .pe "" (some key) e)
    ∧ (∀ (name : String) (value : GoDyn) (w : Err),
      Property name value = some w → ∃ e, V value = some e ∧ w = .pe name none e)
    ∧ (∀ (key : GoVal) (value : GoDyn) (w : Err),
      Index key value = some w → ∃ e, V value = some e ∧ w = .pe "" (some key) e)
    ∧ (∀ (p : String) (i : Option GoVal) (e : Err),
      ∃ m, Err.OriginatingError (.pe p i e) = .leaf m) := by
  refine ⟨?_, ?_, ?_, ?_, ?_⟩
  · intro name thunk w h
    cases h2 : thunk () with
    | none => simp [PropertyFunc, h2] at h
    | some e =>
      refine ⟨e, rfl, ?_⟩
      simp [PropertyFunc, h2] at h
      exact h.symm
  · intro key thunk w h
    cases h2 : thunk () with
    | none => simp [IndexFunc, h2] at h
    | some e =>
      refine ⟨e, rfl, ?_⟩
      simp [IndexFunc, h2] at h
      exact h.symm
  · intro name value w h
    cases h2 : V value with
    | none => simp [Property, PropertyFunc, h2] at h
    | some e =>
      refine ⟨e, rfl, ?_⟩
      simp [Property, PropertyFunc, h2, goSprint] at h
      exact h.symm
  · intro key value w h
    cases h2 : V value with
    | none => simp [Index, IndexFunc, h2] at h
    | some e =>
      refine ⟨e, rfl, ?_⟩
      simp [Index, IndexFunc, h2] at h
      exact h.symm
  · intro p i e
    rw [originating_eq_leafOf]
    exact leafOf_is_leaf e

/-- Claim C10 witness: PropertyFunc at a concrete failing thunk. -/
theorem C10_inner_nonnil_witness :
    PropertyFunc (.str "A") (fun _ => some (.leaf "m")) = some (.pe "A" none (.leaf "m"))
    ∧ (∃ e, (fun (_ : Unit) => some (Err.leaf "m")) () = some e
        ∧ Err.pe "A" none (.leaf "m") = .pe (goSprint (.str "A")) none e)
    ∧ (∃ e, V (.validatable fun _ => some (.leaf "m")) = some e
        ∧ Err.pe "" (some (.int 2)) (.leaf "m") = .pe "" (some (.int 2)) e) := by
  refine ⟨rfl, ?_, ?_⟩
  · exact C10_inner_nonnil.1 (.str "A") (fun _ => some (.leaf "m"))
      (.pe "A" none (.leaf "m")) rfl
  · exact C10_inner_nonnil.2.2.2.1 (.int 2) (.validatable fun _ => some (.leaf "m"))
      (.pe "" (some (.int 2)) (.leaf "m")) rfl
